import Mathlib

/-!
Verification of the webhook-dispatch and authorization core of the `bioid`
repository, shallowly embedded in Lean 4.

Byte strings are `List Nat` with every element `< 256`.  Rust `String`
values that are only passed around verbatim are modelled as Lean `String`;
values whose bytes are manipulated (tokens, base64 text) are modelled as
byte lists, with `ascii` converting a literal to its byte list.
-/

namespace Bioid

/-- Byte strings: Rust byte buffers and the byte view of Rust strings. -/
abbrev Str := List Nat

/-- Byte list of an ASCII string literal (`str::as_bytes`). -/
def ascii (s : String) : Str := s.data.map Char.toNat

/-! ## Base64 (standard alphabet, canonical padding)

Model of `base64::engine::general_purpose::STANDARD` as used by the secret
codec: `encode` over byte chunks of three, strict `decode` over char chunks
of four with canonical `=` padding and zero trailing bits. -/

/-- ASCII code of the standard-alphabet character for a sextet `n < 64`. -/
def b64CharOf (n : Nat) : Nat :=
  if n < 26 then 65 + n
  else if n < 52 then 97 + (n - 26)
  else if n < 62 then 48 + (n - 52)
  else if n = 62 then 43
  else 47

/-- Sextet of an ASCII code, `none` when the char is not in the alphabet. -/
def b64IndexOf (c : Nat) : Option Nat :=
  if 65 ≤ c ∧ c ≤ 90 then some (c - 65)
  else if 97 ≤ c ∧ c ≤ 122 then some (26 + (c - 97))
  else if 48 ≤ c ∧ c ≤ 57 then some (52 + (c - 48))
  else if c = 43 then some 62
  else if c = 47 then some 63
  else none

/-- Base64-encode a byte list to the ASCII codes of its encoding. -/
def b64EncodeBytes : List Nat → List Nat
  | [] => []
  | [a] => [b64CharOf (a / 4), b64CharOf (a % 4 * 16), 61, 61]
  | [a, b] =>
      [b64CharOf (a / 4), b64CharOf (a % 4 * 16 + b / 16),
       b64CharOf (b % 16 * 4), 61]
  | a :: b :: c :: rest =>
      b64CharOf (a / 4) :: b64CharOf (a % 4 * 16 + b / 16) ::
      b64CharOf (b % 16 * 4 + c / 64) :: b64CharOf (c % 64) ::
      b64EncodeBytes rest

/-- Strict base64 decoding of a list of ASCII codes; `none` on malformed
input (wrong length, alphabet violation, non-canonical padding or
non-zero trailing bits). -/
def b64DecodeBytes : List Nat → Option (List Nat)
  | [] => some []
  | c1 :: c2 :: c3 :: c4 :: rest =>
    match b64IndexOf c1, b64IndexOf c2 with
    | some s1, some s2 =>
      if c3 = 61 then
        if c4 = 61 ∧ rest = [] ∧ s2 % 16 = 0 then
          some [s1 * 4 + s2 / 16]
        else none
      else
        match b64IndexOf c3 with
        | some s3 =>
          if c4 = 61 then
            if rest = [] ∧ s3 % 4 = 0 then
              some [s1 * 4 + s2 / 16, s2 % 16 * 16 + s3 / 4]
            else none
          else
            match b64IndexOf c4 with
            | some s4 =>
              (b64DecodeBytes rest).map fun tail =>
                (s1 * 4 + s2 / 16) :: (s2 % 16 * 16 + s3 / 4) ::
                (s3 % 4 * 64 + s4) :: tail
            | none => none
        | none => none
    | _, _ => none
  | _ => none

theorem b64IndexOf_b64CharOf : ∀ n < 64, b64IndexOf (b64CharOf n) = some n := by
  decide

theorem b64CharOf_ne_61 : ∀ n < 64, b64CharOf n ≠ 61 := by
  decide

/-- Decoding inverts encoding on genuine byte lists. -/
theorem b64_decode_encode :
    ∀ bs : List Nat, (∀ b ∈ bs, b < 256) →
      b64DecodeBytes (b64EncodeBytes bs) = some bs
  | [], _ => by simp [b64EncodeBytes, b64DecodeBytes]
  | [a], h => by
    have ha : a < 256 := h a (by simp)
    have h1 := b64IndexOf_b64CharOf (a / 4) (by omega)
    have h2 := b64IndexOf_b64CharOf (a % 4 * 16) (by omega)
    simp only [b64EncodeBytes, b64DecodeBytes, h1, h2]
    simp
    omega
  | [a, b], h => by
    have ha : a < 256 := h a (by simp)
    have hb : b < 256 := h b (by simp)
    have h1 := b64IndexOf_b64CharOf (a / 4) (by omega)
    have h2 := b64IndexOf_b64CharOf (a % 4 * 16 + b / 16) (by omega)
    have h3 := b64IndexOf_b64CharOf (b % 16 * 4) (by omega)
    have n3 := b64CharOf_ne_61 (b % 16 * 4) (by omega)
    simp only [b64EncodeBytes, b64DecodeBytes, h1, h2, h3]
    simp [n3]
    omega
  | a :: b :: c :: rest, h => by
    have ha : a < 256 := h a (by simp)
    have hb : b < 256 := h b (by simp)
    have hc : c < 256 := h c (by simp)
    have ih := b64_decode_encode rest (fun x hx => h x (by simp [hx]))
    have h1 := b64IndexOf_b64CharOf (a / 4) (by omega)
    have h2 := b64IndexOf_b64CharOf (a % 4 * 16 + b / 16) (by omega)
    have h3 := b64IndexOf_b64CharOf (b % 16 * 4 + c / 64) (by omega)
    have h4 := b64IndexOf_b64CharOf (c % 64) (by omega)
    have n3 := b64CharOf_ne_61 (b % 16 * 4 + c / 64) (by omega)
    have n4 := b64CharOf_ne_61 (c % 64) (by omega)
    simp only [b64EncodeBytes, b64DecodeBytes, h1, h2, h3, h4]
    simp [n3, n4, ih]
    omega

/-! ## UTF-8 validity (`String::from_utf8`) -/

/-- UTF-8 continuation byte. -/
def isCont (b : Nat) : Bool := 128 ≤ b && b ≤ 191

/-- Validity check performed by Rust `String::from_utf8` (RFC 3629:
no overlong forms, no surrogates, at most U+10FFFF). -/
def validUtf8 : List Nat → Bool
  | [] => true
  | b1 :: rest =>
    if b1 ≤ 127 then validUtf8 rest
    else match rest with
      | [] => false
      | b2 :: rest2 =>
        if 194 ≤ b1 && b1 ≤ 223 then isCont b2 && validUtf8 rest2
        else match rest2 with
          | [] => false
          | b3 :: rest3 =>
            if b1 = 224 then
              (160 ≤ b2 && b2 ≤ 191) && (isCont b3 && validUtf8 rest3)
            else if (225 ≤ b1 && b1 ≤ 236) || b1 = 238 || b1 = 239 then
              isCont b2 && (isCont b3 && validUtf8 rest3)
            else if b1 = 237 then
              (128 ≤ b2 && b2 ≤ 159) && (isCont b3 && validUtf8 rest3)
            else match rest3 with
              | [] => false
              | b4 :: rest4 =>
                if b1 = 240 then
                  (144 ≤ b2 && b2 ≤ 191) &&
                    (isCont b3 && (isCont b4 && validUtf8 rest4))
                else if 241 ≤ b1 && b1 ≤ 243 then
                  isCont b2 && (isCont b3 && (isCont b4 && validUtf8 rest4))
                else if b1 = 244 then
                  (128 ≤ b2 && b2 ≤ 143) &&
                    (isCont b3 && (isCont b4 && validUtf8 rest4))
                else false

/-! ## Secret codec (`core/src/domain/dtos/webhook/secret.rs`)

`encrypt_me` / `decrypt_me` wrap `ring`'s `AES_256_GCM` `LessSafeKey`.
The AEAD primitive lives in the `ring` crate, outside this repository, so
the codec is parametrised by a structure exposing exactly what GCM sealing
uses: a keystream byte per position (CTR mode, so sealing and opening XOR
the same stream) and a 16-byte tag over the ciphertext.  All theorems hold
for every such primitive, hence in particular for AES-256-GCM. -/

/-- Abstract AEAD primitive in the shape of GCM: a CTR keystream and a
16-byte tag function over (key, nonce, ciphertext). -/
structure AeadAlgo where
  ksByte : List Nat → List Nat → Nat → Nat
  tagOf : List Nat → List Nat → List Nat → List Nat
  ksByte_lt : ∀ k n i, ksByte k n i < 256
  tagOf_len : ∀ k n c, (tagOf k n c).length = 16
  tagOf_lt : ∀ k n c, ∀ b ∈ tagOf k n c, b < 256

/-- XOR a byte list against the keystream starting at position `i`. -/
def ctrXor (ks : Nat → Nat) : Nat → List Nat → List Nat
  | _, [] => []
  | i, b :: rest => (b ^^^ ks i) :: ctrXor ks (i + 1) rest

theorem ctrXor_ctrXor (ks : Nat → Nat) :
    ∀ (i : Nat) (bs : List Nat), ctrXor ks i (ctrXor ks i bs) = bs
  | _, [] => rfl
  | i, b :: rest => by
    simp [ctrXor, ctrXor_ctrXor ks (i + 1) rest, Nat.xor_cancel_right]

theorem ctrXor_length (ks : Nat → Nat) :
    ∀ (i : Nat) (bs : List Nat), (ctrXor ks i bs).length = bs.length
  | _, [] => rfl
  | i, _ :: rest => by simp [ctrXor, ctrXor_length ks (i + 1) rest]

theorem ctrXor_lt (ks : Nat → Nat) (hks : ∀ i, ks i < 256) :
    ∀ (i : Nat) (bs : List Nat), (∀ b ∈ bs, b < 256) →
      ∀ b ∈ ctrXor ks i bs, b < 256
  | _, [], _ => by simp [ctrXor]
  | i, x :: rest, h => by
    simp only [ctrXor, List.mem_cons]
    rintro b (rfl | hb)
    · have hx : x < 2 ^ 8 := by have := h x (by simp); omega
      have hk : ks i < 2 ^ 8 := by have := hks i; omega
      have := Nat.xor_lt_two_pow hx hk
      simpa using this
    · exact ctrXor_lt ks hks (i + 1) rest (fun y hy => h y (by simp [hy])) b hb

/-- Error taxonomy of the secret codec (`dto_err` sites in `secret.rs`,
plus the configuration-secret lookup propagated with `?`). -/
inductive CryptoErr
  | configFailure
  | keyConstruction
  | nonceGeneration
  | sealFailure
  | decodeFailure
  | authenticationFailure
  | utf8Failure
deriving DecidableEq, Repr

/-- Modelled from the spec: the `models::AccountLifeCycle` struct is not
under `src/`; the codec only calls `get_secret`, the process-wide
encryption key, which can be unavailable (`?` propagation). -/
structure AccountLifeCycle where
  token_secret : Option (List Nat)
deriving DecidableEq

def AccountLifeCycle.get_secret (c : AccountLifeCycle) :
    Except CryptoErr (List Nat) :=
  match c.token_secret with
  | some k => .ok k
  | none => .error .configFailure

/-- The `WebHookSecret` enum from `secret.rs`: tokens are byte strings
(they are the only field ever encrypted); header/parameter names stay
plain. -/
inductive WebHookSecret
  | authorizationHeader (name : Option String) (prefix_ : Option String)
      (token : Str)
  | queryParameter (name : String) (token : Str)
deriving DecidableEq, Repr

/-- The `token` field, as read by both codec functions. -/
def WebHookSecret.tokenOf : WebHookSecret → Str
  | .authorizationHeader _ _ token => token
  | .queryParameter _ token => token

/-- Rebuild the secret with a new token, keeping name and prefix: the
common tail of `encrypt_me` and `decrypt_me`. -/
def WebHookSecret.withToken (t : Str) : WebHookSecret → WebHookSecret
  | .authorizationHeader name p _ => .authorizationHeader name p t
  | .queryParameter name _ => .queryParameter name t

/-- Model of `WebHookSecret::encrypt_me`.  The random 12-byte nonce
drawn from `SystemRandom` is passed in explicitly. -/
def encrypt_me (algo : AeadAlgo) (config : AccountLifeCycle)
    (nonce_bytes : List Nat) (s : WebHookSecret) :
    Except CryptoErr WebHookSecret :=
  match config.get_secret with
  | .error e => .error e
  | .ok encryption_key =>
    if encryption_key.length ≠ 32 then .error .keyConstruction
    else
      let in_out :=
        ctrXor (algo.ksByte encryption_key nonce_bytes) 0 s.tokenOf
      let sealed := in_out ++ algo.tagOf encryption_key nonce_bytes in_out
      let result := nonce_bytes ++ sealed
      .ok (s.withToken (b64EncodeBytes result))

/-- Outcome of `decrypt_me`: ordinary `Result` values plus the `panicked`
case a Rust slice operation can raise. -/
inductive DecryptResult
  | ok (s : WebHookSecret)
  | err (e : CryptoErr)
  | panicked
deriving DecidableEq, Repr

/-- Model of `WebHookSecret::decrypt_me`.  `encrypted.split_at(12)` panics when the
base64-decoded input holds fewer than 12 bytes, so the model returns
`.panicked` there; every other failure is a typed error, in source order:
config lookup, base64 decode, key construction, `open_in_place`
(too-short ciphertext or tag mismatch), UTF-8 conversion. -/
def decrypt_me (algo : AeadAlgo) (config : AccountLifeCycle)
    (s : WebHookSecret) : DecryptResult :=
  match config.get_secret with
  | .error e => .err e
  | .ok encryption_key =>
    match b64DecodeBytes s.tokenOf with
    | none => .err .decodeFailure
    | some encrypted =>
      if encrypted.length < 12 then .panicked
      else
        let nonce_bytes := encrypted.take 12
        let ciphertext := encrypted.drop 12
        if encryption_key.length ≠ 32 then .err .keyConstruction
        else if ciphertext.length < 16 then .err .authenticationFailure
        else
          let ct := ciphertext.take (ciphertext.length - 16)
          let tag := ciphertext.drop (ciphertext.length - 16)
          if algo.tagOf encryption_key nonce_bytes ct ≠ tag then
            .err .authenticationFailure
          else
            let in_out :=
              ctrXor (algo.ksByte encryption_key nonce_bytes) 0 ct
            if validUtf8 in_out then .ok (s.withToken in_out)
            else .err .utf8Failure

theorem tokenOf_withToken (s : WebHookSecret) (t : Str) :
    (s.withToken t).tokenOf = t := by
  cases s <;> rfl

theorem withToken_withToken (s : WebHookSecret) (t u : Str) :
    (s.withToken t).withToken u = s.withToken u := by
  cases s <;> rfl

theorem withToken_tokenOf (s : WebHookSecret) :
    s.withToken s.tokenOf = s := by
  cases s <;> rfl

/-- C5: for every GCM-shaped primitive, every configuration holding a
32-byte key, every fresh 12-byte nonce and every secret whose token is a
genuine UTF-8 byte string, `decrypt_me` inverts `encrypt_me` and returns
the very same secret — token, name and prefix included. -/
theorem encrypt_me_decrypt_me_roundtrip
    (algo : AeadAlgo) (config : AccountLifeCycle) (key nonce : List Nat)
    (s : WebHookSecret)
    (hkey : config.token_secret = some key) (hklen : key.length = 32)
    (hnl : nonce.length = 12) (hnb : ∀ b ∈ nonce, b < 256)
    (htb : ∀ b ∈ s.tokenOf, b < 256) (hutf : validUtf8 s.tokenOf = true) :
    ∃ enc, encrypt_me algo config nonce s = .ok enc ∧
      decrypt_me algo config enc = .ok s := by
  have hgs : config.get_secret = .ok key := by
    simp [AccountLifeCycle.get_secret, hkey]
  set ks := algo.ksByte key nonce with hks
  set ct := ctrXor ks 0 s.tokenOf with hct
  set tag := algo.tagOf key nonce ct with htag
  have henc : encrypt_me algo config nonce s
      = .ok (s.withToken (b64EncodeBytes (nonce ++ (ct ++ tag)))) := by
    simp [encrypt_me, hgs, hklen, ← hks, ← hct, ← htag]
  refine ⟨_, henc, ?_⟩
  have hksb : ∀ i, ks i < 256 := fun i => algo.ksByte_lt key nonce i
  have hctb : ∀ b ∈ ct, b < 256 := ctrXor_lt ks hksb 0 _ htb
  have htagb : ∀ b ∈ tag, b < 256 := algo.tagOf_lt key nonce ct
  have hallb : ∀ b ∈ nonce ++ (ct ++ tag), b < 256 := by
    intro b hb
    rcases List.mem_append.1 hb with h | h
    · exact hnb b h
    rcases List.mem_append.1 h with h | h
    · exact hctb b h
    · exact htagb b h
  have hdec := b64_decode_encode (nonce ++ (ct ++ tag)) hallb
  have htagl : tag.length = 16 := algo.tagOf_len key nonce ct
  have hlen : (nonce ++ (ct ++ tag)).length = 12 + (ct.length + 16) := by
    simp [hnl, htagl]
  have htake12 : (nonce ++ (ct ++ tag)).take 12 = nonce :=
    List.take_left' hnl
  have hdrop12 : (nonce ++ (ct ++ tag)).drop 12 = ct ++ tag :=
    List.drop_left' hnl
  have hctlen : (ct ++ tag).length - 16 = ct.length := by
    simp [htagl]
  have htakect : (ct ++ tag).take ((ct ++ tag).length - 16) = ct := by
    rw [hctlen]; exact List.take_left' rfl
  have hdropct : (ct ++ tag).drop ((ct ++ tag).length - 16) = tag := by
    rw [hctlen]; exact List.drop_left' rfl
  rw [decrypt_me, hgs]
  rw [tokenOf_withToken, hdec]
  simp only [hlen]
  rw [if_neg (by omega)]
  simp only [htake12, hdrop12]
  rw [if_neg (by omega)]
  rw [if_neg (by simp [htagl])]
  simp only [htakect, hdropct]
  rw [if_neg (by simp [← htag])]
  rw [hct, ctrXor_ctrXor, hutf]
  simp [withToken_withToken, withToken_tokenOf]

/-- A concrete GCM-shaped primitive used to evaluate the codec on
closed inputs. -/
def toyAead : AeadAlgo where
  ksByte := fun k n i => (k.headD 0 + n.headD 0 + i) % 256
  tagOf := fun k n c => List.replicate 16 ((k.length + n.length + c.length) % 256)
  ksByte_lt := fun _ _ _ => Nat.mod_lt _ (by omega)
  tagOf_len := fun _ _ _ => by simp
  tagOf_lt := fun _ _ c b hb => by
    have h := List.eq_of_mem_replicate hb
    subst h
    exact Nat.mod_lt _ (by omega)

/-- A configuration holding a valid 32-byte key. -/
def cfg32 : AccountLifeCycle := ⟨some (List.replicate 32 7)⟩

/-- Round-trip witness at a closed input. -/
theorem encrypt_me_decrypt_me_roundtrip_witness :
    ∃ enc, encrypt_me toyAead cfg32 (List.replicate 12 1)
        (WebHookSecret.queryParameter "token" (ascii "abc")) = .ok enc ∧
      decrypt_me toyAead cfg32 enc
        = .ok (WebHookSecret.queryParameter "token" (ascii "abc")) :=
  encrypt_me_decrypt_me_roundtrip toyAead cfg32 (List.replicate 32 7)
    (List.replicate 12 1) (WebHookSecret.queryParameter "token" (ascii "abc"))
    rfl (by decide) (by decide) (by decide) (by decide) (by decide)

/-- C6: `decrypt_me` does not return a typed error on every malformed
input — when the base64-decoded input is shorter than 12 bytes
(here `"AAAA"`, three zero bytes) the `split_at(12)` call panics. -/
theorem decrypt_me_short_input_panics :
    decrypt_me toyAead cfg32
      (WebHookSecret.queryParameter "token" (ascii "AAAA"))
      = .panicked := by
  decide

/-! ## Webhook dispatch (`core/src/use_cases/support/dispatch_webhooks.rs`)

The repository call, the HTTP client and the network are external
collaborators: the repository outcome is an explicit argument, and the
network is a function from hook position to the outcome of that hook's
request (`join_all` preserves input order, so position aligns requests
with aggregated responses). -/

/-- Modelled from the spec: the `WebHookTrigger` enum declaration is
not under `src/`; its exact constructor set is fixed by the exhaustive
(wildcard-free) `match` in `dispatch_webhooks`. -/
inductive WebHookTrigger
  | createSubscriptionAccount
  | updateSubscriptionAccount
  | deleteSubscriptionAccount
  | createUserAccount
  | updateUserAccount
  | deleteUserAccount
  | inviteGuestAccount
  | uninviteGuestAccount
deriving DecidableEq, Repr

/-- The trigger-to-verb `match` at the top of `dispatch_webhooks`. -/
def methodOf : WebHookTrigger → String
  | .createSubscriptionAccount | .createUserAccount
  | .inviteGuestAccount => "POST"
  | .updateSubscriptionAccount | .updateUserAccount => "PUT"
  | .deleteSubscriptionAccount | .deleteUserAccount
  | .uninviteGuestAccount => "DELETE"

/-- Request verbs of the `reqwest` client builder. -/
inductive HttpMethod
  | post
  | put
  | delete
deriving DecidableEq, Repr

/-- The second `match method` in the request builder; the wildcard arm
logs and falls back to POST. -/
def reqMethodOf (method : String) : HttpMethod :=
  if method = "POST" then .post
  else if method = "PUT" then .put
  else if method = "DELETE" then .delete
  else .post

/-- Modelled from the spec: the `WebHook` domain DTO struct is not
under `src/`; fields follow §3 of the spec and the two sites that
consume it (`dispatch_webhooks` reads `url` and `get_secret()`, the
prisma fetching adapter fills every field).  Timestamps are abstract
counters. -/
structure WebHook where
  id : Option String
  name : String
  description : Option String
  url : String
  trigger : WebHookTrigger
  secret : Option WebHookSecret
  is_active : Bool
  created : Nat
  updated : Option Nat
deriving DecidableEq, Repr

/-- One aggregated propagation entry, `HookResponse { url, status, body }`. -/
structure HookResponse where
  url : Str
  status : Nat
  body : Option Str
deriving DecidableEq, Repr

/-- The dispatch return value, `WebHookPropagationResponse { payload, propagations }`. -/
structure WebHookPropagationResponse (P : Type) where
  payload : P
  propagations : Option (List HookResponse)
deriving DecidableEq

/-- Repository fetch outcome, `mycelium_base::entities::FetchManyResponseKind`. -/
inductive FetchManyResponseKind (α : Type)
  | found (records : List α)
  | notFound
  | foundPaginated (records : List α)
deriving DecidableEq

/-- Error wrapper `mycelium_base::utils::errors::MappedErrors`, reduced
to its message. -/
structure MappedErrors where
  msg : String
deriving DecidableEq, Repr

/-- Outcome of one outbound `send()`: a transport-level failure, or a
response carrying the components `dispatch_webhooks` reads back
(`url().scheme/host_str/port/path`, `status`, `text()`). -/
inductive SendOutcome
  | failure
  | response (scheme host : Str) (port : Option Nat) (path : Str)
      (status : Nat) (text : Option Str)
deriving DecidableEq

/-- A built outbound request: verb, target url, optional credential
header and optional credential query parameter, JSON body attached. -/
structure BuiltRequest where
  method : HttpMethod
  url : String
  header : Option (String × Str)
  queryParam : Option (String × Str)
deriving DecidableEq

/-- Computation that a Rust panic can abort. -/
inductive RResult (α : Type)
  | ok (a : α)
  | panicked
deriving DecidableEq

/-- The per-hook request builder closure inside `dispatch_webhooks`:
pick the verb, then attach the decrypted secret as header or query
parameter.  A decryption failure hits the `panic!` arm, so it aborts
the whole dispatch. -/
def buildRequest (algo : AeadAlgo) (config : AccountLifeCycle)
    (method : String) (hook : WebHook) : RResult BuiltRequest :=
  let base := reqMethodOf method
  match hook.secret with
  | none => .ok ⟨base, hook.url, none, none⟩
  | some secret =>
    match decrypt_me algo config secret with
    | .err _ => .panicked
    | .panicked => .panicked
    | .ok decrypted =>
      match decrypted with
      | .authorizationHeader name p token =>
        let credential_key := name.getD "Authorization"
        let credential_value :=
          match p with
          | some pre => ascii pre ++ [32] ++ token
          | none => token
        .ok ⟨base, hook.url, some (credential_key, credential_value), none⟩
      | .queryParameter name token =>
        .ok ⟨base, hook.url, none, some (name, token)⟩

/-- Build the whole request batch; any panicking build aborts all of
dispatch (the panic unwinds through `join_all`). -/
def buildAll (algo : AeadAlgo) (config : AccountLifeCycle)
    (method : String) : List WebHook → RResult (List BuiltRequest)
  | [] => .ok []
  | hook :: rest =>
    match buildRequest algo config method hook with
    | .panicked => .panicked
    | .ok r =>
      match buildAll algo config method rest with
      | .panicked => .panicked
      | .ok rs => .ok (r :: rs)

/-- Aggregation of one completed request: a synthetic 500 entry on a
transport failure, otherwise `scheme://host[:port]path` (query string
dropped), the status code and the body text when readable. -/
def mkHookResponse : SendOutcome → HookResponse
  | .failure =>
    ⟨ascii "", 500, some (ascii "Error on connect to webhook")⟩
  | .response scheme host port path status text =>
    ⟨scheme ++ ascii "://" ++ host ++
       (match port with
        | some p => ascii ":" ++ ascii (toString p)
        | none => ascii "") ++ path,
     status, text⟩

/-- The response-collection loop: one entry per hook, in `join_all`
input order. -/
def collectResponses (net : Nat → SendOutcome) :
    Nat → List WebHook → List HookResponse
  | _, [] => []
  | i, _ :: rest => mkHookResponse (net i) :: collectResponses net (i + 1) rest

/-- Model of `dispatch_webhooks`.  `fetchResult` is the outcome of
`webhook_fetching_repo.list_by_trigger(trigger)`, `net` the outcome of
each built request. -/
def dispatch_webhooks {P : Type} (algo : AeadAlgo)
    (trigger : WebHookTrigger) (payload_body : P)
    (config : AccountLifeCycle)
    (fetchResult : Except MappedErrors (FetchManyResponseKind WebHook))
    (net : Nat → SendOutcome) :
    RResult (WebHookPropagationResponse P) :=
  let webhook_response : WebHookPropagationResponse P :=
    ⟨payload_body, none⟩
  match fetchResult with
  | .error _ => .ok webhook_response
  | .ok .notFound => .ok webhook_response
  | .ok (.foundPaginated _) => .ok webhook_response
  | .ok (.found hooks) =>
    let method := methodOf trigger
    match buildAll algo config method hooks with
    | .panicked => .panicked
    | .ok _ =>
      let responses := collectResponses net 0 hooks
      .ok ⟨payload_body,
           if responses.isEmpty then none else some responses⟩

/-- A hook whose request builds without hitting the decryption panic. -/
def hookBuildOk (algo : AeadAlgo) (config : AccountLifeCycle)
    (method : String) (hook : WebHook) : Bool :=
  match buildRequest algo config method hook with
  | .ok _ => true
  | .panicked => false

theorem buildAll_ok (algo : AeadAlgo) (config : AccountLifeCycle)
    (method : String) :
    ∀ hooks : List WebHook,
      hooks.all (hookBuildOk algo config method) = true →
      ∃ rs, buildAll algo config method hooks = .ok rs
  | [], _ => ⟨[], rfl⟩
  | hook :: rest, h => by
    rw [List.all_cons, Bool.and_eq_true] at h
    obtain ⟨rs, hrs⟩ := buildAll_ok algo config method rest h.2
    have h1 := h.1
    rw [hookBuildOk] at h1
    cases hbr : buildRequest algo config method hook with
    | panicked => rw [hbr] at h1; simp at h1
    | ok r => exact ⟨r :: rs, by rw [buildAll, hbr, hrs]⟩

theorem collectResponses_eq (net : Nat → SendOutcome) :
    ∀ (hooks : List WebHook) (i : Nat),
      collectResponses net i hooks
        = (List.range' i hooks.length).map fun j => mkHookResponse (net j)
  | [], _ => by simp [collectResponses]
  | _ :: rest, i => by
    rw [collectResponses, collectResponses_eq net rest (i + 1),
        List.length_cons, List.range'_succ, List.map_cons]

/-- C9: the trigger-to-verb mapping is total over the closed
`WebHookTrigger` enum: every create-kind trigger goes to POST, every
update-kind trigger to PUT and every delete-kind trigger to DELETE. -/
theorem methodOf_trigger_verb_mapping :
    methodOf .createSubscriptionAccount = "POST" ∧
    methodOf .createUserAccount = "POST" ∧
    methodOf .inviteGuestAccount = "POST" ∧
    methodOf .updateSubscriptionAccount = "PUT" ∧
    methodOf .updateUserAccount = "PUT" ∧
    methodOf .deleteSubscriptionAccount = "DELETE" ∧
    methodOf .deleteUserAccount = "DELETE" ∧
    methodOf .uninviteGuestAccount = "DELETE" := by
  decide

/-- C8: dispatching with zero matching hooks (the repository answers
`NotFound`, or `Found` of an empty list) returns the original payload
with `propagations = None`, and is not an error. -/
theorem dispatch_webhooks_empty_hook_list {P : Type} (algo : AeadAlgo)
    (trigger : WebHookTrigger) (payload : P) (config : AccountLifeCycle)
    (net : Nat → SendOutcome) :
    dispatch_webhooks algo trigger payload config (.ok .notFound) net
      = .ok ⟨payload, none⟩ ∧
    dispatch_webhooks algo trigger payload config (.ok (.found [])) net
      = .ok ⟨payload, none⟩ :=
  ⟨rfl, rfl⟩

/-- C10: a repository error on `list_by_trigger` is swallowed:
dispatch returns the original payload with `propagations = None`,
exactly the value returned when no hook matches, so the caller cannot
tell a repository failure from an empty subscription list. -/
theorem dispatch_webhooks_repo_error_swallowed {P : Type} (algo : AeadAlgo)
    (trigger : WebHookTrigger) (payload : P) (config : AccountLifeCycle)
    (net : Nat → SendOutcome) (e : MappedErrors) :
    dispatch_webhooks algo trigger payload config (.error e) net
      = .ok ⟨payload, none⟩ ∧
    dispatch_webhooks algo trigger payload config (.error e) net
      = dispatch_webhooks algo trigger payload config (.ok .notFound) net :=
  ⟨rfl, rfl⟩

/-- A hook without a secret. -/
def plainHook (n : Nat) : WebHook :=
  ⟨some (toString n), "hook", none, "https://one.example/cb",
   .createUserAccount, none, true, 0, none⟩

/-- A hook whose stored secret is not decryptable (malformed base64). -/
def badSecretHook : WebHook :=
  ⟨some "wh-bad", "hook", none, "https://two.example/cb",
   .createUserAccount,
   some (.authorizationHeader none none (ascii "!!!!")), true, 0, none⟩

/-- C1: a single undecryptable secret aborts the whole fan-out — the
`panic!` arm of the request builder unwinds through `join_all`, so the
other hook gets no request and nothing is aggregated. -/
theorem dispatch_webhooks_panics_on_decrypt_failure :
    dispatch_webhooks toyAead .createUserAccount (0 : Nat) cfg32
      (.ok (.found [plainHook 1, badSecretHook])) (fun _ => .failure)
      = .panicked := by
  decide

/-- C7 (amended): over n matching hooks whose requests all build, the
propagations list holds exactly one entry per hook, in order: position j
records the aggregation of hook j's outcome — `scheme://host[:port]path`,
status and body text on a completed request, and the synthetic entry
`{url: "", status: 500, body: "Error on connect to webhook"}` on a
transport failure. -/
theorem dispatch_webhooks_fanout_isolation {P : Type} (algo : AeadAlgo)
    (trigger : WebHookTrigger) (payload : P) (config : AccountLifeCycle)
    (hooks : List WebHook) (net : Nat → SendOutcome)
    (hne : hooks ≠ [])
    (hok : hooks.all (hookBuildOk algo config (methodOf trigger)) = true) :
    dispatch_webhooks algo trigger payload config (.ok (.found hooks)) net
      = .ok ⟨payload,
             some ((List.range hooks.length).map
               fun j => mkHookResponse (net j))⟩ ∧
    ((List.range hooks.length).map fun j => mkHookResponse (net j)).length
      = hooks.length := by
  obtain ⟨rs, hrs⟩ := buildAll_ok algo config (methodOf trigger) hooks hok
  refine ⟨?_, by simp⟩
  have hcr := collectResponses_eq net hooks 0
  rw [← List.range_eq_range'] at hcr
  have hlen : hooks.length ≠ 0 := fun h => hne (List.length_eq_zero.mp h)
  simp only [dispatch_webhooks, hrs, hcr]
  rw [if_neg (by simp [List.isEmpty_iff, hlen])]

/-- The fan-out input of the spec's test property: three matching hooks
where the second endpoint is unreachable. -/
def fanNet : Nat → SendOutcome := fun i =>
  if i = 1 then .failure
  else .response (ascii "https") (ascii "one.example") none (ascii "/cb")
    200 (some (ascii "ok"))

/-- Fan-out witness at the closed three-hook input. -/
theorem dispatch_webhooks_fanout_isolation_witness :
    dispatch_webhooks toyAead .createUserAccount (0 : Nat) cfg32
      (.ok (.found [plainHook 1, plainHook 2, plainHook 3])) fanNet
      = .ok ⟨0,
             some ((List.range
                 ([plainHook 1, plainHook 2, plainHook 3] : List WebHook).length).map
               fun j => mkHookResponse (fanNet j))⟩ ∧
    ((List.range
        ([plainHook 1, plainHook 2, plainHook 3] : List WebHook).length).map
      fun j => mkHookResponse (fanNet j)).length
      = ([plainHook 1, plainHook 2, plainHook 3] : List WebHook).length :=
  dispatch_webhooks_fanout_isolation toyAead .createUserAccount 0 cfg32
    [plainHook 1, plainHook 2, plainHook 3] fanNet (by decide) (by decide)

/-- The propagation entry at position `i` of a dispatch outcome. -/
def propagationAt {P : Type} (r : RResult (WebHookPropagationResponse P))
    (i : Nat) : Option HookResponse :=
  match r with
  | .panicked => none
  | .ok resp =>
    match resp.propagations with
    | none => none
    | some l => l[i]?

/-- The number of propagation entries of a dispatch outcome. -/
def propagationCount {P : Type}
    (r : RResult (WebHookPropagationResponse P)) : Option Nat :=
  match r with
  | .panicked => none
  | .ok resp =>
    match resp.propagations with
    | none => none
    | some l => some l.length

/-- C7 as stated is false: on the three-hook input with hook #2
unreachable, the transport-failure entry carries the body
`"Error on connect to webhook"`, not `"error on connect"`. -/
theorem dispatch_webhooks_fanout_isolation_counterexample :
    propagationCount (dispatch_webhooks toyAead .createUserAccount (0 : Nat)
        cfg32 (.ok (.found [plainHook 1, plainHook 2, plainHook 3])) fanNet)
      = some 3 ∧
    propagationAt (dispatch_webhooks toyAead .createUserAccount (0 : Nat)
        cfg32 (.ok (.found [plainHook 1, plainHook 2, plainHook 3])) fanNet) 1
      = some ⟨ascii "", 500, some (ascii "Error on connect to webhook")⟩ ∧
    propagationAt (dispatch_webhooks toyAead .createUserAccount (0 : Nat)
        cfg32 (.ok (.found [plainHook 1, plainHook 2, plainHook 3])) fanNet) 1
      ≠ some ⟨ascii "", 500, some (ascii "error on connect")⟩ := by
  decide

/-! ## Webhook fetching repository
(`adapters/prisma/src/repositories/webhook_fetching.rs`)

The database round trip is external; what the adapter owns is the
per-record mapping from a stored row to the `WebHook` DTO.  `get` and
`list` call `webhook.redact_secret_token()` on every mapped record;
`list_by_trigger` — the dispatcher's fetch path — returns the record
with the stored (encrypted) token untouched. -/

/-- A stored `webhook` row, already through the ORM layer: the trigger
string is parsed and the secret JSON deserialized (both `unwrap`ed in
the adapter). -/
structure WebhookRecord where
  id : String
  name : String
  description : Option String
  url : String
  trigger : WebHookTrigger
  secret : Option WebHookSecret
  is_active : Bool
  created : Nat
  updated : Option Nat
deriving DecidableEq, Repr

/-- Modelled from the spec: the fixed placeholder written over fetched
secret tokens — `redact_secret_token` lives in the `WebHook` DTO, which
is not under `src/`, and the spec only fixes that the token is replaced
with a fixed placeholder string. -/
def redactedToken : Str := ascii "REDACTED"

/-- Modelled from the spec: `WebHook::redact_secret_token` replaces the
secret's token with the fixed placeholder, keeping name and prefix. -/
def WebHook.redact_secret_token (w : WebHook) : WebHook :=
  { w with secret := w.secret.map (WebHookSecret.withToken redactedToken) }

/-- The record-to-DTO mapping shared by all three fetch operations:
`WebHook::new` followed by the field assignments. -/
def mapWebhookRecord (r : WebhookRecord) : WebHook :=
  { id := some r.id, name := r.name, description := r.description,
    url := r.url, trigger := r.trigger, secret := r.secret,
    is_active := r.is_active, created := r.created, updated := r.updated }

/-- Per-record mapping of `get`: maps, then redacts. -/
def get_map_record (r : WebhookRecord) : WebHook :=
  (mapWebhookRecord r).redact_secret_token

/-- Per-record mapping of `list`: maps, then redacts. -/
def list_map_record (r : WebhookRecord) : WebHook :=
  (mapWebhookRecord r).redact_secret_token

/-- Per-record mapping of `list_by_trigger`: maps and returns, with no
redaction call. -/
def list_by_trigger_map_record (r : WebhookRecord) : WebHook :=
  mapWebhookRecord r

/-- C2 as stated is false: `list_by_trigger` hands back the stored
secret token verbatim — here the raw ciphertext `"rawciphertext"`,
which is not the redaction placeholder. -/
theorem webhook_fetch_redaction_counterexample :
    (list_by_trigger_map_record
        ⟨"wh-7", "hook", none, "https://one.example/cb",
         .createUserAccount,
         some (.queryParameter "token" (ascii "rawciphertext")),
         true, 0, none⟩).secret
      = some (.queryParameter "token" (ascii "rawciphertext")) ∧
    ascii "rawciphertext" ≠ redactedToken := by
  decide

/-- C2 (amended): `get` and `list` redact every fetched secret's token
to the fixed placeholder; `list_by_trigger` returns the secret exactly
as stored (its token stays the encrypted-at-rest value, for the
dispatcher to decrypt). -/
theorem webhook_fetch_redaction (r : WebhookRecord) :
    (get_map_record r).secret.map WebHookSecret.tokenOf
      = r.secret.map (fun _ => redactedToken) ∧
    (list_map_record r).secret.map WebHookSecret.tokenOf
      = r.secret.map (fun _ => redactedToken) ∧
    (list_by_trigger_map_record r).secret = r.secret := by
  refine ⟨?_, ?_, rfl⟩ <;>
  · cases hs : r.secret with
    | none =>
      simp [get_map_record, list_map_record, mapWebhookRecord,
        WebHook.redact_secret_token, hs]
    | some s =>
      simp [get_map_record, list_map_record, mapWebhookRecord,
        WebHook.redact_secret_token, hs, tokenOf_withToken]

/-! ## Permission model and licensed-resource filtering
(`adapters/prisma/src/repositories/licensed_resources_fetching.rs`)

The SQL row filter built by `list_licensed_resources` is in `src/`: the
`permissioned_roles` fold produces the disjunction
`(gr_slug = role AND gr_perm = perm) OR ...` over the requirement
pairs.  The `Permission` enum and the construction of the requirement
list live in the profile DTOs, which are not under `src/`, and are
modelled from the spec. -/

/-- Modelled from the spec: `Permission`, the ordered set
Read < Write < ReadWrite. -/
inductive Permission
  | read
  | write
  | readWrite
deriving DecidableEq, Repr

/-- Modelled from the spec: the numeric discriminant used when a
`Permission` is cast to an integer for the SQL filter
(`permission as i64`), following the declared order. -/
def Permission.toI64 : Permission → Nat
  | .read => 0
  | .write => 1
  | .readWrite => 2

/-- Modelled from the spec: the "at-least" satisfaction rule — a grant
satisfies a required level iff it is at least that level in the order
Read < Write < ReadWrite. -/
def Permission.satisfies (grant required : Permission) : Bool :=
  required.toI64 ≤ grant.toI64

/-- Modelled from the spec: the requirement list a check for
`(role, minLevel)` contributes to `permissioned_roles` — one pair per
grant level satisfying the at-least rule. -/
def requirePairsFor (role : String) (minLevel : Permission) :
    List (String × Permission) :=
  ([Permission.read, .write, .readWrite].filter
      fun g => g.satisfies minLevel).map fun g => (role, g)

/-- A `licensed_resources` view row as deserialized by the adapter. -/
structure LicensedResourceRow where
  acc_id : String
  acc_name : String
  tenant_id : Option String
  is_acc_std : Bool
  gr_slug : String
  gr_perm : Nat
  gu_verified : Bool
deriving DecidableEq, Repr

/-- The `permissioned_roles` SQL condition from the fold in
`list_licensed_resources`: the row passes iff some requirement pair
matches its role slug and permission discriminant exactly. -/
def rowMatchesPermissionedRoles (row : LicensedResourceRow)
    (permissioned_roles : List (String × Permission)) : Bool :=
  permissioned_roles.any fun rp =>
    row.gr_slug = rp.1 && row.gr_perm = rp.2.toI64

/-- C3: permission-level satisfaction is monotonic — a row granting
ReadWrite passes both a Read-requirement and a Write-requirement
filter on its role, while a row granting only Read fails the
Write-requirement filter. -/
theorem permission_level_monotonic (row : LicensedResourceRow) :
    (row.gr_perm = Permission.readWrite.toI64 →
       rowMatchesPermissionedRoles row
           (requirePairsFor row.gr_slug .read) = true ∧
       rowMatchesPermissionedRoles row
           (requirePairsFor row.gr_slug .write) = true) ∧
    (row.gr_perm = Permission.read.toI64 →
       rowMatchesPermissionedRoles row
           (requirePairsFor row.gr_slug .write) = false) := by
  constructor
  · intro h2
    constructor <;>
      simp [rowMatchesPermissionedRoles, requirePairsFor,
        Permission.satisfies, Permission.toI64, h2]
  · intro h0
    simp [rowMatchesPermissionedRoles, requirePairsFor,
      Permission.satisfies, Permission.toI64, h0]

/-- Monotonicity witness: a ReadWrite row passes Read and Write
filters, a Read row fails the Write filter. -/
theorem permission_level_monotonic_witness :
    (rowMatchesPermissionedRoles
        ⟨"acc-1", "alice", some "t-1", false, "editor", 2, true⟩
        (requirePairsFor "editor" .read) = true ∧
     rowMatchesPermissionedRoles
        ⟨"acc-1", "alice", some "t-1", false, "editor", 2, true⟩
        (requirePairsFor "editor" .write) = true) ∧
    rowMatchesPermissionedRoles
        ⟨"acc-2", "bob", some "t-1", false, "editor", 0, true⟩
        (requirePairsFor "editor" .write) = false :=
  ⟨(permission_level_monotonic
      ⟨"acc-1", "alice", some "t-1", false, "editor", 2, true⟩).1 rfl,
   (permission_level_monotonic
      ⟨"acc-2", "bob", some "t-1", false, "editor", 0, true⟩).2 rfl⟩

/-! ## Account archival-status change
(`core/src/use_cases/roles/managers/account/change_account_archival_status.rs`) -/

/-- Parent reference `clean_base::dtos::enums::ParentEnum`: a parent
either by id or as an inlined record. -/
inductive ParentEnum (α β : Type)
  | id (v : β)
  | record (v : α)
deriving DecidableEq

/-- The `AccountType` DTO from `core/src/domain/dtos/account.rs`. -/
structure AccountType where
  id : Option String
  name : String
  description : String
  is_subscription : Bool
  is_manager : Bool
  is_staff : Bool
deriving DecidableEq, Repr

/-- The `Account` DTO from `core/src/domain/dtos/account.rs`, restricted to the
fields the archival use case reads or writes (`owner`, `guest_users`,
`verbose_status` and the timestamps are carried through untouched and
elided). -/
structure Account where
  id : Option String
  name : String
  is_active : Bool
  is_checked : Bool
  is_archived : Bool
  account_type : ParentEnum AccountType String
deriving DecidableEq

/-- Modelled from the spec: the `Profile` DTO is not under `src/`;
this use case reads exactly the `is_manager` / `is_staff` flags of the
caller's resolved identity snapshot. -/
structure Profile where
  is_manager : Bool
  is_staff : Bool
deriving DecidableEq, Repr

/-- Fetch outcome `clean_base::entities::default_response::FetchResponseKind`. -/
inductive FetchResponseKind (α β : Type)
  | found (a : α)
  | notFound (b : Option β)
deriving DecidableEq

/-- The `use_case_err` return sites of the archival use case, one
constructor per site (messages elided). -/
inductive ArchivalErr
  | fetchFailure (e : MappedErrors)
  | invalidAccountId
  | uncheckedTargetId
  | insufficientPrivileges
  | uncheckedAccountType
  | staffTargetForbidden
deriving DecidableEq

/-- Model of `change_account_archival_status`, as a function of the caller
profile and the account-fetch outcome.  `.ok a` models the single
mutation site — `account_updating_repo.update(a)` reached with the
archival flag set; every `.error` return happens before the update, so
an error means the mutation was not performed. -/
def change_account_archival_status (profile : Profile)
    (_account_id : String) (is_archived : Bool)
    (fetched : Except MappedErrors (FetchResponseKind Account String)) :
    Except ArchivalErr Account :=
  match fetched with
  | .error e => .error (.fetchFailure e)
  | .ok (.notFound _) => .error .invalidAccountId
  | .ok (.found account) =>
    match account.id with
    | none => .error .uncheckedTargetId
    | some _ =>
      if !(profile.is_manager || profile.is_staff) then
        .error .insufficientPrivileges
      else
        match account.account_type with
        | .id _ => .error .uncheckedAccountType
        | .record res =>
          if profile.is_manager && !profile.is_staff && res.is_staff then
            .error .staffTargetForbidden
          else
            .ok { account with is_archived := is_archived }

/-- C4: a Manager who is not Staff can never archive or unarchive an
account whose account type is flagged staff — the use case returns an
error before reaching the update repository, whatever the rest of the
profile and account look like. -/
theorem change_account_archival_status_staff_override
    (profile : Profile) (account_id : String) (is_archived : Bool)
    (account : Account) (atype : AccountType)
    (hm : profile.is_manager = true) (hs : profile.is_staff = false)
    (hat : account.account_type = .record atype)
    (hstaff : atype.is_staff = true) :
    ∃ e, change_account_archival_status profile account_id is_archived
        (.ok (.found account)) = .error e := by
  rw [change_account_archival_status]
  cases account.id with
  | none => exact ⟨.uncheckedTargetId, rfl⟩
  | some v =>
    rw [hat]
    simp [hm, hs, hstaff]

/-- Staff-override witness: a concrete Manager profile against a
concrete staff-typed account. -/
theorem change_account_archival_status_staff_override_witness :
    ∃ e, change_account_archival_status ⟨true, false⟩ "acc-9" true
        (.ok (.found ⟨some "acc-9", "target", true, true, false,
          .record ⟨some "at-1", "staff type", "staff accounts", false,
            false, true⟩⟩)) = .error e :=
  change_account_archival_status_staff_override ⟨true, false⟩ "acc-9" true
    ⟨some "acc-9", "target", true, true, false,
      .record ⟨some "at-1", "staff type", "staff accounts", false, false,
        true⟩⟩
    ⟨some "at-1", "staff type", "staff accounts", false, false, true⟩
    rfl rfl rfl rfl

end Bioid
